import Mathlib

/-!
Verification of the `calculate_extra_time` aggregation/report core

Shallow embedding of `src/main.rs`: the daily aggregation loop, the
cumulative extra-time loop, the `CSVSheet` report builder, and the final
hours/minutes/seconds decomposition.  Hash maps keyed by `String` are
modelled by association lists whose lookup/insert/remove semantics agree
with `std::collections::HashMap`; the program never iterates a hash map,
so no iteration order has to be modelled.  Rust's stable sorts on
`Vec<String>` (resp. on columns compared by their first cell) are modelled
by insertion sort over the same lexicographic order on strings, which a
stable sort determines uniquely.  `i64` values are modelled by `Int`
(no claim concerns overflow).
-/

namespace CalcExtra

/-! Section: Association-list model of `std::collections::HashMap<String, V>` -/

/-- Model of `HashMap<String, V>`: a list of key/value pairs in which at
most one binding per key is live (lookup takes the first binding). -/
def SMap (V : Type) : Type := List (String × V)

namespace SMap

/-- Rust `HashMap::new()`. -/
def empty {V : Type} : SMap V := ([] : List (String × V))

/-- Rust `HashMap::get` (as an `Option`, like Rust's `Option<&V>`). -/
def get? {V : Type} (m : SMap V) (k : String) : Option V :=
  (List.find? (fun p => p.1 == k) m).map Prod.snd

/-- Rust `HashMap::contains_key`. -/
def containsKey {V : Type} (m : SMap V) (k : String) : Bool :=
  List.any m (fun p => p.1 == k)

/-- Rust `HashMap::remove` (the program discards the returned value). -/
def remove {V : Type} (m : SMap V) (k : String) : SMap V :=
  List.filter (fun p => !(p.1 == k)) m

/-- Rust `HashMap::insert`: replaces any previous binding of the key. -/
def insert {V : Type} (m : SMap V) (k : String) (v : V) : SMap V :=
  (k, v) :: remove m k

end SMap

/-! Section: The lexicographic string order used by `String::cmp` / `Vec::sort` -/

/-- Lexicographic comparison of character lists (the order underlying
Rust's `String: Ord`, which compares Unicode scalar values). -/
def charListLe : List Char → List Char → Bool
  | [], _ => true
  | _ :: _, [] => false
  | a :: as, b :: bs => if a < b then true else if b < a then false else charListLe as bs

/-- Comparison `a <= b` for strings in the order used by `String::cmp`. -/
def strLe (a b : String) : Bool := charListLe a.data b.data

/-- The corresponding propositional relation, used for sortedness
statements. -/
def StrLeP (a b : String) : Prop := strLe a b = true

instance : DecidableRel StrLeP := fun a b => by
  unfold StrLeP; infer_instance

/-! Section: Constants and the aggregation loop (src/main.rs lines 9-10, 168-193) -/

/-- Constant `NORMAL_WORKING_TIME_PER_DAY_IN_SECONDS: i64 = 7 * 60 * 60` (src/main.rs line 10). -/
def NORMAL_WORKING_TIME_PER_DAY_IN_SECONDS : Int := 7 * 60 * 60

/-- State of the aggregation loop: `tasks_per_day` and `all_days`
(src/main.rs lines 143, 168). -/
structure AggState where
  tasks_per_day : SMap (List Int)
  all_days : List String

/-- Body of the `for task in all_tasks` loop (src/main.rs lines 170-191).
A task is already parsed into its day string and its duration in seconds;
the RFC3339-parsing of the `start` field belongs to the excluded
acquisition collaborator. -/
def processTask (st : AggState) (task : String × Int) : AggState :=
  let day_as_string := task.1
  let worktime_in_seconds := task.2
  if st.tasks_per_day.containsKey day_as_string then
    let current_tasks :=
      (st.tasks_per_day.get? day_as_string).getD [] ++ [worktime_in_seconds]
    { st with tasks_per_day :=
        (st.tasks_per_day.remove day_as_string).insert day_as_string current_tasks }
  else
    { tasks_per_day := st.tasks_per_day.insert day_as_string [worktime_in_seconds],
      all_days := st.all_days ++ [day_as_string] }

/-- The whole aggregation loop over the task list. -/
def aggregateTasks (all_tasks : List (String × Int)) : AggState :=
  all_tasks.foldl processTask { tasks_per_day := SMap.empty, all_days := [] }

/-- Model of `all_days.sort()` (src/main.rs line 193): a stable ascending sort of the
day strings, modelled by insertion sort over the same total order. -/
def sortDays (l : List String) : List String :=
  List.insertionSort StrLeP l

/-! Section: The CSV sheet (src/main.rs lines 37-101) -/

/-- Rust `struct CSVSheet` (src/main.rs lines 37-41). -/
@[ext]
structure CSVSheet where
  columns : List (List String)
  max_columns_length : Nat
  file_name : String
deriving DecidableEq

namespace CSVSheet

/-- Model of `CSVSheet::new` (src/main.rs lines 44-50). -/
def new (file_name : String) : CSVSheet :=
  { columns := [], max_columns_length := 0, file_name := file_name }

/-- Model of `CSVSheet::add_column` (src/main.rs lines 51-53): `Vec::push`. -/
def add_column (s : CSVSheet) (column : List String) : CSVSheet :=
  { s with columns := s.columns ++ [column] }

/-- The comparison used by `sort_columns`: `a[0].cmp(&b[0])`
(a column is never empty when this is called; `headD ""` models `[0]`). -/
def ColLeP (a b : List String) : Prop := strLe (a.headD "") (b.headD "") = true

instance : DecidableRel ColLeP := fun a b => by
  unfold ColLeP; infer_instance

/-- Model of `CSVSheet::sort_columns` (src/main.rs lines 55-57): stable sort of the
columns by their first cell. -/
def sort_columns (s : CSVSheet) : CSVSheet :=
  { s with columns := List.insertionSort ColLeP s.columns }

/-- Model of `CSVSheet::update_max_columns_length` (src/main.rs lines 59-65):
raises `max_columns_length` to the largest column length (it never
decreases the stored value). -/
def update_max_columns_length (s : CSVSheet) : CSVSheet :=
  { s with max_columns_length :=
      (s.columns.foldl
        (fun m column => if column.length > m then column.length else m)
        s.max_columns_length) }

end CSVSheet

/-- Padding of one column inside `align_columns` (src/main.rs lines 70-73):
push `len - column.len()` empty strings. -/
def padColumn (len : Nat) (column : List String) : List String :=
  column ++ List.replicate (len - column.length) ""

namespace CSVSheet

/-- Model of `CSVSheet::align_columns` (src/main.rs lines 67-75). -/
def align_columns (s : CSVSheet) : CSVSheet :=
  let s1 := s.update_max_columns_length
  { s1 with columns := s1.columns.map (padColumn s1.max_columns_length) }

end CSVSheet

/-- The nine cells pushed onto one column by `add_total_times_to_columns`
(src/main.rs lines 84-98).  `column[0]` is modelled by `headD ""` and the
two `.unwrap()` calls by `Option.getD` (their success is claim C9). -/
def addSummary (work_duration_in_seconds_per_day : SMap Int)
    (cumulated_extra_time_per_day : SMap Int) (column : List String) :
    List String :=
  let column_day := column.headD ""
  let total_work_at_day := (work_duration_in_seconds_per_day.get? column_day).getD 0
  let extra_time_worked_at_day :=
    total_work_at_day - NORMAL_WORKING_TIME_PER_DAY_IN_SECONDS
  column ++
    ["", "Total time worked that day :", toString total_work_at_day,
     "", "Extra time worked that day :", toString extra_time_worked_at_day,
     "", "Cumulated extra time worked :",
     toString ((cumulated_extra_time_per_day.get? column_day).getD 0)]

namespace CSVSheet

/-- Model of `CSVSheet::add_total_times_to_columns` (src/main.rs lines 77-101). -/
def add_total_times_to_columns (s : CSVSheet)
    (work_duration_in_seconds_per_day : SMap Int)
    (cumulated_extra_time_per_day : SMap Int) : CSVSheet :=
  let s1 := s.align_columns
  let s2 := { s1 with columns :=
      (s1.columns.map
        (addSummary work_duration_in_seconds_per_day cumulated_extra_time_per_day)) }
  s2.update_max_columns_length

end CSVSheet

/-! Section: The two per-day passes of `main` (src/main.rs lines 195-218) -/

/-- Body of the `for day in &all_days` loop building the sheet columns and
`total_work_duration_per_day` (src/main.rs lines 195-206).  The Rust loop
body both accumulates `total_worked_that_day` and pushes
`task.to_string()`; the two accumulations are written side by side.
The `.unwrap()` on `tasks_per_day.get` is modelled by `Option.getD`
(its success is claim C9). -/
def buildDayStep (tasks_per_day : SMap (List Int))
    (acc : CSVSheet × SMap Int) (day : String) : CSVSheet × SMap Int :=
  let tasks := (tasks_per_day.get? day).getD []
  let column_to_add_in_sheet := day :: tasks.map toString
  let total_worked_that_day := tasks.foldl (fun t task => t + task) 0
  (acc.1.add_column column_to_add_in_sheet,
   acc.2.insert day total_worked_that_day)

/-- The whole column-building loop (src/main.rs lines 195-206). -/
def mainBuildLoop (sorted_days : List String) (tasks_per_day : SMap (List Int))
    (sheet0 : CSVSheet) : CSVSheet × SMap Int :=
  sorted_days.foldl (buildDayStep tasks_per_day) (sheet0, SMap.empty)

/-- Body of the second `for day in &all_days` loop (src/main.rs lines
208-218): running total of extra time and `cumulated_extra_time_per_day`. -/
def cumulateDayStep (total_work_duration_per_day : SMap Int)
    (acc : Int × SMap Int) (day : String) : Int × SMap Int :=
  let time_worked_this_day := (total_work_duration_per_day.get? day).getD 0
  let extra_time_worked :=
    time_worked_this_day - NORMAL_WORKING_TIME_PER_DAY_IN_SECONDS
  let total_extra_time_worked := acc.1 + extra_time_worked
  (total_extra_time_worked, acc.2.insert day total_extra_time_worked)

/-- The whole cumulative loop (src/main.rs lines 208-218). -/
def mainCumulateLoop (sorted_days : List String)
    (total_work_duration_per_day : SMap Int) : Int × SMap Int :=
  sorted_days.foldl (cumulateDayStep total_work_duration_per_day) (0, SMap.empty)

/-! Section: The pipeline of `main` on an already-parsed entry list -/

/-- Value of `all_days` after the aggregation loop. -/
def allDays (entries : List (String × Int)) : List String :=
  (aggregateTasks entries).all_days

/-- Value of `all_days` after `all_days.sort()` (src/main.rs line 193). -/
def sortedDays (entries : List (String × Int)) : List String :=
  sortDays (allDays entries)

/-- Value of `tasks_per_day` after the aggregation loop. -/
def tasksPerDay (entries : List (String × Int)) : SMap (List Int) :=
  (aggregateTasks entries).tasks_per_day

/-- The sheet and `total_work_duration_per_day` after the first per-day
loop; the sheet starts as `CSVSheet::new("results.csv")`
(src/main.rs line 121). -/
def builtSheetTotals (entries : List (String × Int)) : CSVSheet × SMap Int :=
  mainBuildLoop (sortedDays entries) (tasksPerDay entries)
    (CSVSheet.new "results.csv")

/-- The sheet after the column-building loop. -/
def builtSheet (entries : List (String × Int)) : CSVSheet :=
  (builtSheetTotals entries).1

/-- Value of `total_work_duration_per_day` after the column-building loop. -/
def totalWorkDurationPerDay (entries : List (String × Int)) : SMap Int :=
  (builtSheetTotals entries).2

/-- The pair (`total_extra_time_worked`, `cumulated_extra_time_per_day`)
after the second per-day loop (src/main.rs lines 208-218). -/
def cumulateRun (entries : List (String × Int)) : Int × SMap Int :=
  mainCumulateLoop (sortedDays entries) (totalWorkDurationPerDay entries)

/-- Value of `total_extra_time_worked` (src/main.rs lines 208-213). -/
def totalExtraTimeWorked (entries : List (String × Int)) : Int :=
  (cumulateRun entries).1

/-- Value of `cumulated_extra_time_per_day`. -/
def cumulatedExtraTimePerDay (entries : List (String × Int)) : SMap Int :=
  (cumulateRun entries).2

/-- The sheet written as `results.csv` when `--csv` is set
(src/main.rs lines 220-224): sort the columns, then append the totals. -/
def finalSheet (entries : List (String × Int)) : CSVSheet :=
  ((builtSheet entries).sort_columns).add_total_times_to_columns
    (totalWorkDurationPerDay entries) (cumulatedExtraTimePerDay entries)

/-! Section: Hours/minutes/seconds decomposition (src/main.rs lines 226-230)

`chrono::TimeDelta::seconds(s)` stores exactly `s` whole seconds, and its
accessors perform `i64` division, which truncates toward zero:
`num_seconds() = s`, `num_hours() = s / 3600`, `num_minutes() = s / 60`. -/

/-- Accessor `TimeDelta::num_seconds()` for a delta built by `TimeDelta::seconds`. -/
def num_seconds (total_seconds : Int) : Int := total_seconds

/-- Accessor `TimeDelta::num_hours()`: `i64` division by 3600, truncating toward
zero (`Int.tdiv`). -/
def num_hours (total_seconds : Int) : Int := Int.tdiv total_seconds 3600

/-- Accessor `TimeDelta::num_minutes()`: `i64` division by 60, truncating toward
zero. -/
def num_minutes (total_seconds : Int) : Int := Int.tdiv total_seconds 60

/-- Line `let hours = extra_time_worked.num_hours();` (src/main.rs line 228). -/
def hoursPart (total_seconds : Int) : Int := num_hours total_seconds

/-- Line `let minutes = extra_time_worked.num_minutes() - (hours * 60);`
(src/main.rs line 229). -/
def minutesPart (total_seconds : Int) : Int :=
  num_minutes total_seconds - hoursPart total_seconds * 60

/-- Line `let seconds = extra_time_worked.num_seconds() - (hours * 60 * 60) -
(minutes * 60);` (src/main.rs line 230). -/
def secondsPart (total_seconds : Int) : Int :=
  num_seconds total_seconds - hoursPart total_seconds * 60 * 60 -
    minutesPart total_seconds * 60

/-! Section: Specification-side derived quantities

These definitions follow the spec's vocabulary (`DayBucket`,
`DailyTotals`, the canonical report grid) and are compared with the
embedded program. -/

/-- Spec `DayBucket[d]`: the durations of exactly the input entries whose day
is `d`, in input order. -/
def dayEntries (entries : List (String × Int)) (d : String) : List Int :=
  (entries.filter (fun e => e.1 == d)).map Prod.snd

/-- Spec `DailyTotals[d]`: the sum of `DayBucket[d]`. -/
def dayTotal (entries : List (String × Int)) (d : String) : Int :=
  (dayEntries entries d).sum

/-- The column built for day `d` before padding: the day label followed by
the day's durations rendered in decimal. -/
def dayColumnOf (entries : List (String × Int)) (d : String) : List String :=
  d :: (dayEntries entries d).map toString

/-- The padded height of the grid before the summary block: the largest
pre-summary column length. -/
def maxDayColumnLen (entries : List (String × Int)) : Nat :=
  (sortedDays entries).foldl (fun m d => max m (dayColumnOf entries d).length) 0

/-- The largest `DayBucket` size over all days. -/
def maxBucketSize (entries : List (String × Int)) : Nat :=
  (sortedDays entries).foldl (fun m d => max m (dayEntries entries d).length) 0

/-- Spec `CumulativeExtraTime` at position `i` of the sorted day list: the sum
of the daily extra times of the first `i + 1` sorted days. -/
def cumThrough (entries : List (String × Int)) (i : Nat) : Int :=
  (((sortedDays entries).take (i + 1)).map
    (fun d => dayTotal entries d - NORMAL_WORKING_TIME_PER_DAY_IN_SECONDS)).sum

/-- The fixed nine-cell summary block of a column whose day has total
worked time `total` and cumulative extra time `cum`. -/
def summaryBlock (total cum : Int) : List String :=
  ["", "Total time worked that day :", toString total,
   "", "Extra time worked that day :",
   toString (total - NORMAL_WORKING_TIME_PER_DAY_IN_SECONDS),
   "", "Cumulated extra time worked :", toString cum]

/-- The canonical report grid, written directly as a function of the
input entry list: one column per sorted day, padded to the common
pre-summary height and closed by the summary block. -/
def canonicalGrid (entries : List (String × Int)) : List (List String) :=
  (List.range (sortedDays entries).length).map
    (fun i =>
      padColumn (maxDayColumnLen entries)
        (dayColumnOf entries ((sortedDays entries).getD i "")) ++
      summaryBlock (dayTotal entries ((sortedDays entries).getD i ""))
        (cumThrough entries i))

/-- The column pushed for day `d` by the building loop, straight from the
map state. -/
def rawColumn (es : List (String × Int)) (d : String) : List String :=
  d :: (((tasksPerDay es).get? d).getD []).map toString

/-- The value `max_columns_length` reaches inside
`add_total_times_to_columns` before padding. -/
def builtMax (es : List (String × Int)) : Nat :=
  ((sortedDays es).map (rawColumn es)).foldl (fun m c => max m c.length) 0

/-! Section: Lemmas about the map model -/

namespace SMap

theorem get?_insert_self {V : Type} (m : SMap V) (k : String) (v : V) :
    (m.insert k v).get? k = some v := by
  simp [insert, get?, List.find?]

theorem get?_remove_ne {V : Type} (m : SMap V) {k k' : String} (h : k' ≠ k) :
    (m.remove k).get? k' = m.get? k' := by
  induction m with
  | nil => rfl
  | cons p rest ih =>
    by_cases hp : p.1 = k
    · have h1 : remove (p :: rest) k = remove rest k := by
        simp [remove, List.filter_cons, hp]
      have h2 : (p.1 == k') = false := by
        rw [hp]; exact beq_eq_false_iff_ne.2 (Ne.symm h)
      rw [h1, ih]
      simp [get?, List.find?_cons, h2]
    · have h1 : remove (p :: rest) k = p :: remove rest k := by
        simp [remove, List.filter_cons, beq_iff_eq, hp]
      rw [h1]
      by_cases hp' : p.1 = k'
      · simp [get?, List.find?_cons, hp']
      · have h2 : (p.1 == k') = false := by simp [hp']
        simp only [get?, List.find?_cons, h2, cond_false]
        exact ih

theorem get?_insert_ne {V : Type} (m : SMap V) {k k' : String} (v : V)
    (h : k' ≠ k) : (m.insert k v).get? k' = m.get? k' := by
  have hr := @get?_remove_ne V m k k' h
  simp [insert, get?, List.find?_cons, beq_eq_false_iff_ne, Ne.symm h] at hr ⊢
  simpa [get?] using hr

theorem containsKey_eq_isSome {V : Type} (m : SMap V) (k : String) :
    m.containsKey k = (m.get? k).isSome := by
  induction m with
  | nil => rfl
  | cons p rest ih =>
    by_cases hp : p.1 = k
    · simp [containsKey, get?, List.any_cons, List.find?_cons, hp]
    · have h2 : (p.1 == k) = false := by simp [hp]
      simp only [containsKey, get?, List.any_cons, List.find?_cons, h2,
        cond_false, Bool.false_or]
      exact ih

theorem get?_empty {V : Type} (k : String) : (empty : SMap V).get? k = none := rfl

end SMap

/-! Section: The string order is a total preorder -/

theorem charListLe_cons_iff (a b : Char) (as bs : List Char) :
    charListLe (a :: as) (b :: bs) = true ↔
      a < b ∨ (a = b ∧ charListLe as bs = true) := by
  by_cases h1 : a < b
  · simp [charListLe, h1]
  · by_cases h2 : b < a
    · have hne : a ≠ b := ne_of_gt h2
      simp [charListLe, h1, h2, hne]
    · have heq : a = b := le_antisymm (not_lt.1 h2) (not_lt.1 h1)
      simp [charListLe, h1, h2, heq]

theorem charListLe_total (as bs : List Char) :
    charListLe as bs = true ∨ charListLe bs as = true := by
  induction as generalizing bs with
  | nil => left; rfl
  | cons a as ih =>
    cases bs with
    | nil => right; rfl
    | cons b bs =>
      rcases lt_trichotomy a b with h | h | h
      · left; exact (charListLe_cons_iff ..).2 (Or.inl h)
      · rcases ih bs with h' | h'
        · left; exact (charListLe_cons_iff ..).2 (Or.inr ⟨h, h'⟩)
        · right; exact (charListLe_cons_iff ..).2 (Or.inr ⟨h.symm, h'⟩)
      · right; exact (charListLe_cons_iff ..).2 (Or.inl h)

theorem charListLe_trans {as bs cs : List Char}
    (h1 : charListLe as bs = true) (h2 : charListLe bs cs = true) :
    charListLe as cs = true := by
  induction as generalizing bs cs with
  | nil => rfl
  | cons a as ih =>
    cases bs with
    | nil => exact absurd h1 (by simp [charListLe])
    | cons b bs =>
      cases cs with
      | nil => exact absurd h2 (by simp [charListLe])
      | cons c cs =>
        rcases (charListLe_cons_iff ..).1 h1 with hab | ⟨hab, hab'⟩ <;>
          rcases (charListLe_cons_iff ..).1 h2 with hbc | ⟨hbc, hbc'⟩
        · exact (charListLe_cons_iff ..).2 (Or.inl (lt_trans hab hbc))
        · exact (charListLe_cons_iff ..).2 (Or.inl (hbc ▸ hab))
        · exact (charListLe_cons_iff ..).2 (Or.inl (hab ▸ hbc))
        · exact (charListLe_cons_iff ..).2 (Or.inr ⟨hab.trans hbc, ih hab' hbc'⟩)

theorem strLe_total (a b : String) : strLe a b = true ∨ strLe b a = true :=
  charListLe_total a.data b.data

theorem strLe_trans {a b c : String} (h1 : strLe a b = true)
    (h2 : strLe b c = true) : strLe a c = true :=
  charListLe_trans h1 h2

/-! Section: Generic fold lemmas -/

theorem foldl_add_sum (l : List Int) (a : Int) :
    l.foldl (fun t x => t + x) a = a + l.sum := by
  induction l generalizing a with
  | nil => simp
  | cons x xs ih => simp [ih, add_assoc]

theorem foldl_max_init_le {α : Type} (l : List α) (f : α → Nat) (n : Nat) :
    n ≤ l.foldl (fun m x => max m (f x)) n := by
  induction l generalizing n with
  | nil => exact le_refl n
  | cons x xs ih => exact le_trans (le_max_left n (f x)) (ih (max n (f x)))

theorem foldl_max_le_of_mem {α : Type} (l : List α) (f : α → Nat) :
    ∀ {x : α}, x ∈ l → ∀ n : Nat, f x ≤ l.foldl (fun m x => max m (f x)) n := by
  induction l with
  | nil => intro x hx; cases hx
  | cons y ys ih =>
    intro x hx n
    rcases List.mem_cons.1 hx with h | h
    · subst h
      exact le_trans (le_max_right n (f x)) (foldl_max_init_le ys f _)
    · exact ih h _

theorem foldl_max_le_bound {α : Type} (l : List α) (f : α → Nat) (B : Nat) :
    (∀ x ∈ l, f x ≤ B) → ∀ n : Nat, n ≤ B →
      l.foldl (fun m x => max m (f x)) n ≤ B := by
  induction l with
  | nil => intro _ n hn; exact hn
  | cons x xs ih =>
    intro hl n hn
    exact ih (fun y hy => hl y (List.mem_cons_of_mem x hy)) _
      (max_le hn (hl x (List.mem_cons_self x xs)))

theorem foldl_max_shift {α : Type} (l : List α) (f : α → Nat) (n : Nat) :
    l.foldl (fun m x => max m (f x + 1)) (n + 1) =
      l.foldl (fun m x => max m (f x)) n + 1 := by
  induction l generalizing n with
  | nil => rfl
  | cons x xs ih => simpa [Nat.succ_max_succ] using ih (max n (f x))

theorem foldl_congr_mem {α β : Type} (l : List α) (f g : β → α → β) (n : β)
    (h : ∀ b : β, ∀ a ∈ l, f b a = g b a) : l.foldl f n = l.foldl g n := by
  induction l generalizing n with
  | nil => rfl
  | cons x xs ih =>
    rw [List.foldl_cons, List.foldl_cons, h n x (List.mem_cons_self x xs)]
    exact ih _ (fun b a ha => h b a (List.mem_cons_of_mem x ha))

/-! Section: Characterisation of the aggregation loop -/

theorem dayEntries_append_single (es : List (String × Int))
    (e : String × Int) (d : String) :
    dayEntries (es ++ [e]) d =
      dayEntries es d ++ (if e.1 = d then [e.2] else []) := by
  by_cases he : e.1 = d <;>
    simp [dayEntries, List.filter_append, List.filter_cons, he]

theorem aggregateTasks_append_single (es : List (String × Int))
    (e : String × Int) :
    aggregateTasks (es ++ [e]) = processTask (aggregateTasks es) e := by
  simp [aggregateTasks, List.foldl_append]

theorem aggregateTasks_spec (es : List (String × Int)) :
    (∀ d, (aggregateTasks es).tasks_per_day.get? d =
        (if dayEntries es d = [] then none else some (dayEntries es d))) ∧
    (aggregateTasks es).all_days.Nodup ∧
    (∀ d, d ∈ (aggregateTasks es).all_days ↔ dayEntries es d ≠ []) := by
  induction es using List.reverseRecOn with
  | nil =>
    refine ⟨fun d => rfl, List.nodup_nil, fun d => ?_⟩
    simp [aggregateTasks, dayEntries]
  | append_singleton es e ih =>
    obtain ⟨ihget, ihnd, ihmem⟩ := ih
    rw [aggregateTasks_append_single]
    unfold processTask
    by_cases hc : (aggregateTasks es).tasks_per_day.containsKey e.1 = true
    · -- the day was seen before: its bucket is extended, `all_days` is unchanged
      have hsome : ((aggregateTasks es).tasks_per_day.get? e.1).isSome := by
        rw [← SMap.containsKey_eq_isSome]; exact hc
      have hne : dayEntries es e.1 ≠ [] := by
        intro hnil
        rw [ihget e.1, if_pos hnil] at hsome
        simp at hsome
      have hget1 : (aggregateTasks es).tasks_per_day.get? e.1 =
          some (dayEntries es e.1) := by
        rw [ihget e.1, if_neg hne]
      rw [if_pos hc]
      refine ⟨fun d => ?_, ihnd, fun d => ?_⟩
      · by_cases hd : d = e.1
        · subst hd
          rw [SMap.get?_insert_self, hget1, dayEntries_append_single]
          simp
        · have hed : ¬ e.1 = d := fun hh => hd hh.symm
          rw [SMap.get?_insert_ne _ _ hd, SMap.get?_remove_ne _ hd, ihget d,
            dayEntries_append_single]
          simp [hed]
      · by_cases hd : d = e.1
        · subst hd
          simp [ihmem, hne, dayEntries_append_single]
        · have hed : ¬ e.1 = d := fun hh => hd hh.symm
          simp [ihmem, dayEntries_append_single, hed]
    · -- a new day: a fresh singleton bucket, the day is appended to `all_days`
      have hcf : (aggregateTasks es).tasks_per_day.containsKey e.1 = false :=
        Bool.eq_false_iff.2 hc
      have hnone : (aggregateTasks es).tasks_per_day.get? e.1 = none := by
        have h2 := (SMap.containsKey_eq_isSome
          (aggregateTasks es).tasks_per_day e.1).symm
        rw [hcf] at h2
        exact Option.not_isSome_iff_eq_none.1 (by simp [h2])
      have hnil : dayEntries es e.1 = [] := by
        by_contra hne
        rw [ihget e.1, if_neg hne] at hnone
        exact Option.noConfusion hnone
      have hnotmem : e.1 ∉ (aggregateTasks es).all_days := by
        rw [ihmem e.1]
        simp [hnil]
      rw [if_neg hc]
      refine ⟨fun d => ?_, ?_, fun d => ?_⟩
      · by_cases hd : d = e.1
        · subst hd
          rw [SMap.get?_insert_self, dayEntries_append_single]
          simp [hnil]
        · have hed : ¬ e.1 = d := fun hh => hd hh.symm
          rw [SMap.get?_insert_ne _ _ hd, ihget d, dayEntries_append_single]
          simp [hed]
      · simp [List.nodup_append, ihnd, hnotmem]
      · by_cases hd : d = e.1
        · subst hd
          simp [dayEntries_append_single, hnil]
        · have hed : ¬ e.1 = d := fun hh => hd hh.symm
          simp [ihmem, dayEntries_append_single, hed, hd]

theorem tasksPerDay_get (es : List (String × Int)) (d : String)
    (h : dayEntries es d ≠ []) :
    (tasksPerDay es).get? d = some (dayEntries es d) := by
  rw [tasksPerDay, (aggregateTasks_spec es).1 d, if_neg h]

theorem allDays_nodup (es : List (String × Int)) : (allDays es).Nodup :=
  (aggregateTasks_spec es).2.1

theorem mem_allDays_iff (es : List (String × Int)) (d : String) :
    d ∈ allDays es ↔ dayEntries es d ≠ [] :=
  (aggregateTasks_spec es).2.2 d

theorem mem_map_fst_iff (es : List (String × Int)) (d : String) :
    d ∈ es.map Prod.fst ↔ dayEntries es d ≠ [] := by
  simp only [dayEntries, List.mem_map, ne_eq, List.map_eq_nil_iff,
    List.filter_eq_nil_iff, beq_iff_eq, not_forall]
  constructor
  · rintro ⟨e, he, rfl⟩
    exact ⟨e, he, by simp⟩
  · rintro ⟨e, he, hd⟩
    exact ⟨e, he, by simpa using hd⟩

/-! Section: The sorted day list -/

theorem sortedDays_perm (es : List (String × Int)) :
    (sortedDays es).Perm (allDays es) :=
  List.perm_insertionSort StrLeP (allDays es)

theorem sortedDays_nodup (es : List (String × Int)) : (sortedDays es).Nodup :=
  ((sortedDays_perm es).nodup_iff).2 (allDays_nodup es)

theorem mem_sortedDays_iff (es : List (String × Int)) (d : String) :
    d ∈ sortedDays es ↔ dayEntries es d ≠ [] := by
  rw [(sortedDays_perm es).mem_iff, mem_allDays_iff]

theorem sortedDays_sorted (es : List (String × Int)) :
    List.Sorted StrLeP (sortedDays es) :=
  @List.sorted_insertionSort String StrLeP _ ⟨strLe_total⟩
    ⟨fun _ _ _ => strLe_trans⟩ (allDays es)

theorem sortedDays_nil : sortedDays [] = [] := rfl

theorem sortedDays_ne_nil (es : List (String × Int)) (h : es ≠ []) :
    sortedDays es ≠ [] := by
  obtain ⟨e, rest, rfl⟩ := List.exists_cons_of_ne_nil h
  intro hnil
  have : e.1 ∈ sortedDays (e :: rest) := by
    rw [mem_sortedDays_iff, ← mem_map_fst_iff]
    simp
  rw [hnil] at this
  cases this

/-! Section: Characterisation of the column-building loop -/

theorem buildLoop_sheet (tpd : SMap (List Int)) (days : List String) :
    ∀ acc : CSVSheet × SMap Int,
      (days.foldl (buildDayStep tpd) acc).1 =
        { acc.1 with columns :=
            (acc.1.columns ++
              days.map (fun d => d :: ((tpd.get? d).getD []).map toString)) } := by
  induction days with
  | nil => intro acc; simp
  | cons day rest ih =>
    intro acc
    rw [List.foldl_cons, ih]
    simp [buildDayStep, CSVSheet.add_column]

theorem buildLoop_totals (tpd : SMap (List Int)) (days : List String)
    (d : String) :
    ∀ acc : CSVSheet × SMap Int,
      ((days.foldl (buildDayStep tpd) acc).2).get? d =
        if d ∈ days then
          some (((tpd.get? d).getD []).foldl (fun t x => t + x) 0)
        else acc.2.get? d := by
  induction days with
  | nil => intro acc; simp
  | cons day rest ih =>
    intro acc
    rw [List.foldl_cons, ih]
    by_cases hm : d ∈ rest
    · simp [hm]
    · by_cases hd : d = day
      · subst hd
        simp [hm, buildDayStep, SMap.get?_insert_self]
      · simp [hm, hd, buildDayStep, SMap.get?_insert_ne _ _ hd]

theorem builtSheet_eq (es : List (String × Int)) :
    builtSheet es =
      { columns := (sortedDays es).map (rawColumn es),
        max_columns_length := 0, file_name := "results.csv" } := by
  rw [builtSheet, builtSheetTotals, mainBuildLoop,
    buildLoop_sheet (tasksPerDay es) (sortedDays es)]
  rfl

theorem totalWorkDurationPerDay_get (es : List (String × Int)) (d : String)
    (h : d ∈ sortedDays es) :
    (totalWorkDurationPerDay es).get? d = some (dayTotal es d) := by
  rw [totalWorkDurationPerDay, builtSheetTotals, mainBuildLoop,
    buildLoop_totals (tasksPerDay es) (sortedDays es) d, if_pos h,
    tasksPerDay_get es d ((mem_sortedDays_iff es d).1 h)]
  simp [foldl_add_sum, dayTotal]

theorem totalWorkDurationPerDay_get_of_entries (es : List (String × Int))
    (d : String) (h : dayEntries es d ≠ []) :
    (totalWorkDurationPerDay es).get? d = some (dayTotal es d) :=
  totalWorkDurationPerDay_get es d ((mem_sortedDays_iff es d).2 h)

/-! Section: Characterisation of the cumulative loop -/

theorem cumulateLoop_fst (totals : SMap Int) (days : List String) :
    ∀ (a : Int) (m : SMap Int),
      (days.foldl (cumulateDayStep totals) (a, m)).1 =
        a + (days.map (fun d =>
          (totals.get? d).getD 0 -
            NORMAL_WORKING_TIME_PER_DAY_IN_SECONDS)).sum := by
  induction days with
  | nil => intro a m; simp
  | cons day rest ih =>
    intro a m
    rw [List.foldl_cons]
    show (rest.foldl (cumulateDayStep totals) (cumulateDayStep totals (a, m) day)).1 = _
    rw [show cumulateDayStep totals (a, m) day =
        (a + ((totals.get? day).getD 0 - NORMAL_WORKING_TIME_PER_DAY_IN_SECONDS),
         m.insert day
           (a + ((totals.get? day).getD 0 -
             NORMAL_WORKING_TIME_PER_DAY_IN_SECONDS))) from rfl]
    rw [ih]
    simp [add_assoc]

theorem cumulateLoop_get_not_mem (totals : SMap Int) (days : List String)
    (d : String) (h : d ∉ days) :
    ∀ acc : Int × SMap Int,
      ((days.foldl (cumulateDayStep totals) acc).2).get? d = acc.2.get? d := by
  induction days with
  | nil => intro acc; rfl
  | cons day rest ih =>
    intro acc
    have hd : d ≠ day := fun hh => h (hh ▸ List.mem_cons_self day rest)
    have hr : d ∉ rest := fun hh => h (List.mem_cons_of_mem day hh)
    rw [List.foldl_cons]
    rw [ih hr]
    exact SMap.get?_insert_ne _ _ hd

theorem cumulateLoop_get_index (totals : SMap Int) (days : List String)
    (hnd : days.Nodup) :
    ∀ (i : Nat) (hi : i < days.length) (a : Int) (m : SMap Int),
      ((days.foldl (cumulateDayStep totals) (a, m)).2).get? (days.get ⟨i, hi⟩) =
        some (a + ((days.take (i + 1)).map (fun d =>
          (totals.get? d).getD 0 -
            NORMAL_WORKING_TIME_PER_DAY_IN_SECONDS)).sum) := by
  induction days with
  | nil => intro i hi; cases hi
  | cons day rest ih =>
    intro i hi a m
    have hdr : day ∉ rest := (List.nodup_cons.1 hnd).1
    have hndr : rest.Nodup := (List.nodup_cons.1 hnd).2
    cases i with
    | zero =>
      rw [List.foldl_cons]
      have h0 : (day :: rest).get ⟨0, hi⟩ = day := rfl
      rw [h0, cumulateLoop_get_not_mem totals rest day hdr]
      have h1 : (cumulateDayStep totals (a, m) day).2 =
          m.insert day (a + ((totals.get? day).getD 0 -
            NORMAL_WORKING_TIME_PER_DAY_IN_SECONDS)) := rfl
      rw [h1, SMap.get?_insert_self]
      simp
    | succ i =>
      rw [List.foldl_cons]
      have hget : (day :: rest).get ⟨i + 1, hi⟩ =
          rest.get ⟨i, Nat.lt_of_succ_lt_succ hi⟩ := rfl
      rw [hget, ih hndr i (Nat.lt_of_succ_lt_succ hi)]
      have h1 : (cumulateDayStep totals (a, m) day).1 =
          a + ((totals.get? day).getD 0 -
            NORMAL_WORKING_TIME_PER_DAY_IN_SECONDS) := rfl
      rw [h1]
      simp [add_assoc]

/-! Section: Lemmas about the sheet methods -/

theorem if_gt_eq_max (m l : Nat) : (if l > m then l else m) = max m l := by
  by_cases h : l > m
  · rw [if_pos h, Nat.max_eq_right (Nat.le_of_lt h)]
  · rw [if_neg h, Nat.max_eq_left (Nat.le_of_not_lt h)]

theorem update_max_eq (s : CSVSheet) :
    s.update_max_columns_length =
      { s with max_columns_length :=
          (s.columns.foldl (fun m c => max m c.length) s.max_columns_length) } := by
  unfold CSVSheet.update_max_columns_length
  congr 1
  exact foldl_congr_mem s.columns _ _ s.max_columns_length
    (fun b a _ => if_gt_eq_max b a.length)

theorem padColumn_length {L : Nat} {c : List String} (h : c.length ≤ L) :
    (padColumn L c).length = L := by
  simp [padColumn]
  omega

theorem padColumn_headD (L : Nat) (a : String) (t : List String) :
    (padColumn L (a :: t)).headD "" = a := rfl

theorem padColumn_eq_self {L : Nat} {c : List String} (h : L ≤ c.length) :
    padColumn L c = c := by
  simp [padColumn, Nat.sub_eq_zero_of_le h]

theorem align_columns_eq (s : CSVSheet) :
    s.align_columns =
      { columns :=
          (s.columns.map (padColumn
            (s.columns.foldl (fun m c => max m c.length) s.max_columns_length))),
        max_columns_length :=
          (s.columns.foldl (fun m c => max m c.length) s.max_columns_length),
        file_name := s.file_name } := by
  unfold CSVSheet.align_columns
  rw [update_max_eq]

theorem align_columns_uniform (s : CSVSheet) :
    ∀ c ∈ (s.align_columns).columns,
      c.length = (s.align_columns).max_columns_length := by
  rw [align_columns_eq]
  intro c hc
  obtain ⟨c0, hc0, rfl⟩ := List.mem_map.1 hc
  exact padColumn_length (foldl_max_le_of_mem s.columns List.length hc0 _)

theorem align_align (s : CSVSheet) :
    (s.align_columns).align_columns = s.align_columns := by
  have huni := align_columns_uniform s
  rw [align_columns_eq s] at huni ⊢
  rw [align_columns_eq]
  have hM : ((s.columns.map (padColumn
      (s.columns.foldl (fun m c => max m c.length) s.max_columns_length))).foldl
        (fun m c => max m c.length)
        (s.columns.foldl (fun m c => max m c.length) s.max_columns_length)) =
      s.columns.foldl (fun m c => max m c.length) s.max_columns_length := by
    apply Nat.le_antisymm
    · exact foldl_max_le_bound _ _ _ (fun c hc => le_of_eq (huni c hc)) _
        (le_refl _)
    · exact foldl_max_init_le _ _ _
  rw [hM]
  ext1
  · show List.map _ _ = _
    rw [List.map_map]
    apply List.map_congr_left
    intro c hc
    show padColumn _ (padColumn _ c) = padColumn _ c
    apply padColumn_eq_self
    exact le_of_eq (huni _ (List.mem_map_of_mem _ hc)).symm
  · rfl
  · rfl

theorem align_columns_of_uniform (s : CSVSheet) (L : Nat)
    (hc : ∀ c ∈ s.columns, c.length = L) (hm : s.max_columns_length ≤ L) :
    (s.align_columns).columns = s.columns := by
  rw [align_columns_eq]
  have hML : (s.columns.foldl (fun m c => max m c.length)
      s.max_columns_length) ≤ L :=
    foldl_max_le_bound _ _ _ (fun c hcc => le_of_eq (hc c hcc)) _ hm
  show List.map _ _ = _
  conv_rhs => rw [← List.map_id s.columns]
  apply List.map_congr_left
  intro c hcc
  show padColumn _ c = c
  exact padColumn_eq_self (le_trans hML (le_of_eq (hc c hcc).symm))

theorem sort_columns_perm (s : CSVSheet) :
    (s.sort_columns).columns.Perm s.columns :=
  List.perm_insertionSort CSVSheet.ColLeP s.columns

theorem sort_columns_sorted (s : CSVSheet) :
    List.Sorted CSVSheet.ColLeP (s.sort_columns).columns :=
  @List.sorted_insertionSort (List String) CSVSheet.ColLeP _
    ⟨fun a b => strLe_total (a.headD "") (b.headD "")⟩
    ⟨fun _ _ _ => strLe_trans⟩ s.columns

theorem sort_columns_of_sorted (s : CSVSheet)
    (h : List.Sorted CSVSheet.ColLeP s.columns) : s.sort_columns = s := by
  unfold CSVSheet.sort_columns
  rw [h.insertionSort_eq]

/-! Section: The structure of the final sheet -/

theorem rawColumn_eq_dayColumnOf (es : List (String × Int)) (d : String)
    (h : d ∈ sortedDays es) : rawColumn es d = dayColumnOf es d := by
  rw [rawColumn, tasksPerDay_get es d ((mem_sortedDays_iff es d).1 h)]
  rfl

theorem builtMax_eq (es : List (String × Int)) :
    builtMax es = maxDayColumnLen es := by
  rw [builtMax, List.foldl_map, maxDayColumnLen]
  exact foldl_congr_mem _ _ _ _
    (fun b d hd => by rw [rawColumn_eq_dayColumnOf es d hd])

theorem builtSheet_sorted (es : List (String × Int)) :
    List.Sorted CSVSheet.ColLeP (builtSheet es).columns := by
  rw [builtSheet_eq]
  show List.Pairwise _ _
  rw [List.pairwise_map]
  exact (sortedDays_sorted es).imp (fun h => h)

theorem add_total_times_columns (s : CSVSheet) (wd cum : SMap Int) :
    (s.add_total_times_to_columns wd cum).columns =
      (s.align_columns).columns.map (addSummary wd cum) := rfl

theorem finalSheet_columns (es : List (String × Int)) :
    (finalSheet es).columns =
      (sortedDays es).map (fun d =>
        addSummary (totalWorkDurationPerDay es) (cumulatedExtraTimePerDay es)
          (padColumn (builtMax es) (rawColumn es d))) := by
  rw [finalSheet, sort_columns_of_sorted _ (builtSheet_sorted es),
    add_total_times_columns, builtSheet_eq, align_columns_eq]
  simp only [List.map_map]
  apply List.map_congr_left
  intro d _
  rfl

theorem cumulated_get_index (es : List (String × Int)) (i : Nat)
    (hi : i < (sortedDays es).length) :
    (cumulatedExtraTimePerDay es).get? ((sortedDays es).get ⟨i, hi⟩) =
      some (cumThrough es i) := by
  rw [cumulatedExtraTimePerDay, cumulateRun, mainCumulateLoop,
    cumulateLoop_get_index (totalWorkDurationPerDay es) (sortedDays es)
      (sortedDays_nodup es) i hi 0 SMap.empty]
  congr 1
  rw [zero_add, cumThrough]
  apply congrArg List.sum
  apply List.map_congr_left
  intro d hd
  rw [totalWorkDurationPerDay_get es d (List.take_subset _ _ hd)]
  rfl

theorem cumulated_get_last (es : List (String × Int)) (ds' : List String)
    (d : String) (h : sortedDays es = ds' ++ [d]) :
    (cumulatedExtraTimePerDay es).get? d = some (totalExtraTimeWorked es) := by
  rw [cumulatedExtraTimePerDay, totalExtraTimeWorked, cumulateRun,
    mainCumulateLoop, h, List.foldl_append]
  simp only [List.foldl_cons, List.foldl_nil]
  rw [show (cumulateDayStep (totalWorkDurationPerDay es)
      (List.foldl (cumulateDayStep (totalWorkDurationPerDay es))
        (0, SMap.empty) ds') d).2 =
    (List.foldl (cumulateDayStep (totalWorkDurationPerDay es))
        (0, SMap.empty) ds').2.insert d
      ((List.foldl (cumulateDayStep (totalWorkDurationPerDay es))
        (0, SMap.empty) ds').1 +
       (((totalWorkDurationPerDay es).get? d).getD 0 -
         NORMAL_WORKING_TIME_PER_DAY_IN_SECONDS)) from rfl]
  rw [SMap.get?_insert_self]
  rfl

theorem totalExtra_formula (es : List (String × Int)) :
    totalExtraTimeWorked es =
      ((sortedDays es).map (fun d =>
        dayTotal es d - NORMAL_WORKING_TIME_PER_DAY_IN_SECONDS)).sum := by
  rw [totalExtraTimeWorked, cumulateRun, mainCumulateLoop,
    cumulateLoop_fst, zero_add]
  apply congrArg List.sum
  apply List.map_congr_left
  intro d hd
  rw [totalWorkDurationPerDay_get es d hd]
  rfl

theorem addSummary_eq (wd cum : SMap Int) (c : List String) (d : String)
    (hhead : c.headD "" = d) (t cv : Int)
    (ht : wd.get? d = some t) (hcv : cum.get? d = some cv) :
    addSummary wd cum c = c ++ summaryBlock t cv := by
  have h1 : addSummary wd cum c =
      c ++ ["", "Total time worked that day :",
            toString ((wd.get? (c.headD "")).getD 0),
            "", "Extra time worked that day :",
            toString ((wd.get? (c.headD "")).getD 0 -
              NORMAL_WORKING_TIME_PER_DAY_IN_SECONDS),
            "", "Cumulated extra time worked :",
            toString ((cum.get? (c.headD "")).getD 0)] := rfl
  rw [h1, hhead, ht, hcv]
  rfl

theorem finalSheet_columns_canonical (es : List (String × Int)) :
    (finalSheet es).columns = canonicalGrid es := by
  rw [finalSheet_columns, canonicalGrid]
  apply List.ext_get
  · simp
  · intro i h1 h2
    rw [List.get_map, List.get_map]
    have hi : i < (sortedDays es).length := by simpa using h1
    have hrange : (List.range (sortedDays es).length).get
        ⟨i, by simpa using h2⟩ = i := by
      simp
    rw [hrange]
    set d := (sortedDays es).get ⟨i, hi⟩ with hd
    have hmem : d ∈ sortedDays es := by rw [hd]; exact List.get_mem _ _ _
    have hgetD : (sortedDays es).getD i "" = d := by
      rw [List.getD_eq_getElem _ _ hi, hd]
      rfl
    rw [hgetD, rawColumn_eq_dayColumnOf es d hmem, builtMax_eq]
    exact addSummary_eq (totalWorkDurationPerDay es)
      (cumulatedExtraTimePerDay es)
      (padColumn (maxDayColumnLen es) (dayColumnOf es d)) d rfl
      (dayTotal es d) (cumThrough es i)
      (totalWorkDurationPerDay_get es d hmem)
      (by rw [hd]; exact cumulated_get_index es i hi)

/-! Section: Auxiliary facts for the report claims -/

theorem toString_neg_int (i : Int) (h : i < 0) :
    ∃ s : String, toString i = "-" ++ s := by
  cases i with
  | ofNat n =>
    exact absurd h (not_lt.2 (Int.ofNat_nonneg n))
  | negSucc n => exact ⟨toString (n + 1), rfl⟩

theorem getD_mem_sortedDays (es : List (String × Int)) (i : Nat)
    (hi : i < (sortedDays es).length) :
    (sortedDays es).getD i "" ∈ sortedDays es := by
  rw [List.getD_eq_getElem _ _ hi]
  exact List.getElem_mem hi

theorem dayColumnOf_length (es : List (String × Int)) (d : String) :
    (dayColumnOf es d).length = (dayEntries es d).length + 1 := by
  simp [dayColumnOf]

theorem maxDayColumnLen_eq (es : List (String × Int))
    (h : sortedDays es ≠ []) :
    maxDayColumnLen es = maxBucketSize es + 1 := by
  rw [maxDayColumnLen, maxBucketSize]
  rw [foldl_congr_mem (sortedDays es) _
      (fun m d => max m ((dayEntries es d).length + 1)) 0
      (fun b a _ => by rw [dayColumnOf_length])]
  obtain ⟨d0, rest, hds⟩ := List.exists_cons_of_ne_nil h
  rw [hds, List.foldl_cons, List.foldl_cons]
  rw [Nat.zero_max, Nat.zero_max, foldl_max_shift]

/-! Section: Claim theorems -/

/-- C1: the scalar total extra time equals the sum over the distinct input
days of (DailyTotals[d] - 25200); the sorted day list is exactly the set of
distinct input days; for a non-empty input the total equals the cumulative
extra time recorded for the last day of the ascending day list; an empty
input yields an empty day list and total 0, not an error. -/
theorem claim1_total_extra_time (es : List (String × Int)) :
    totalExtraTimeWorked es =
      ((sortedDays es).map (fun d => dayTotal es d - 25200)).sum ∧
    (sortedDays es).Nodup ∧
    (∀ d : String, d ∈ sortedDays es ↔ d ∈ es.map Prod.fst) ∧
    (∀ (ds' : List String) (d : String), sortedDays es = ds' ++ [d] →
      (cumulatedExtraTimePerDay es).get? d = some (totalExtraTimeWorked es)) ∧
    (es = [] → sortedDays es = [] ∧ totalExtraTimeWorked es = 0) := by
  have hN : NORMAL_WORKING_TIME_PER_DAY_IN_SECONDS = 25200 := by decide
  refine ⟨?_, sortedDays_nodup es, fun d => ?_,
    fun ds' d h => cumulated_get_last es ds' d h, fun h => ?_⟩
  · rw [totalExtra_formula es]
    simp only [hN]
  · rw [mem_sortedDays_iff, mem_map_fst_iff]
  · subst h
    exact ⟨rfl, rfl⟩

/-- Witness for C1: the spec's three-entry scenario and the empty input. -/
theorem claim1_total_extra_time_witness :
    (cumulatedExtraTimePerDay
        [("2024-01-02", (28800 : Int)), ("2024-01-01", 3600),
         ("2024-01-01", 21600)]).get? "2024-01-02" =
      some (totalExtraTimeWorked
        [("2024-01-02", (28800 : Int)), ("2024-01-01", 3600),
         ("2024-01-01", 21600)]) ∧
    (sortedDays ([] : List (String × Int)) = [] ∧
      totalExtraTimeWorked ([] : List (String × Int)) = 0) :=
  ⟨(claim1_total_extra_time
      [("2024-01-02", (28800 : Int)), ("2024-01-01", 3600),
       ("2024-01-01", 21600)]).2.2.2.1 ["2024-01-01"] "2024-01-02" (by decide),
   (claim1_total_extra_time ([] : List (String × Int))).2.2.2.2 rfl⟩

/-- C2: for every day present in the input, the aggregated per-day total is
the sum of the durations of exactly the input entries whose day is that
day, each entry counted once. -/
theorem claim2_daily_totals (es : List (String × Int)) (d : String)
    (h : d ∈ es.map Prod.fst) :
    (totalWorkDurationPerDay es).get? d =
      some (((es.filter (fun e => e.1 == d)).map Prod.snd).sum) :=
  totalWorkDurationPerDay_get_of_entries es d ((mem_map_fst_iff es d).1 h)

/-- Witness for C2: the day 2024-01-01 of the spec's scenario totals
3600 + 21600 = 25200 seconds. -/
theorem claim2_daily_totals_witness :
    (totalWorkDurationPerDay
        [("2024-01-02", (28800 : Int)), ("2024-01-01", 3600),
         ("2024-01-01", 21600)]).get? "2024-01-01" = some 25200 :=
  (claim2_daily_totals
      [("2024-01-02", (28800 : Int)), ("2024-01-01", 3600),
       ("2024-01-01", 21600)] "2024-01-01" (by decide)).trans (by decide)

/-- C8: the reported decomposition satisfies hours = truncated division of
the total by 3600, minutes = truncated division by 60 minus hours*60,
seconds = total - hours*3600 - minutes*60, and it recomposes exactly to the
total for positive and negative totals alike. -/
theorem claim8_time_decomposition (total_seconds : Int) :
    hoursPart total_seconds = Int.tdiv total_seconds 3600 ∧
    minutesPart total_seconds =
      Int.tdiv total_seconds 60 - hoursPart total_seconds * 60 ∧
    secondsPart total_seconds =
      total_seconds - hoursPart total_seconds * 3600 -
        minutesPart total_seconds * 60 ∧
    hoursPart total_seconds * 3600 + minutesPart total_seconds * 60 +
        secondsPart total_seconds = total_seconds := by
  refine ⟨rfl, rfl, ?_, ?_⟩
  · show num_seconds total_seconds - hoursPart total_seconds * 60 * 60 -
        minutesPart total_seconds * 60 = _
    rw [num_seconds]
    ring
  · show hoursPart total_seconds * 3600 + minutesPart total_seconds * 60 +
        (num_seconds total_seconds - hoursPart total_seconds * 60 * 60 -
          minutesPart total_seconds * 60) = total_seconds
    rw [num_seconds]
    ring

/-- C10: the produced grid and scalar total are functions of the input
entry list alone: the final columns equal the canonical grid written
directly from the entry list, and the total equals the canonical sum —
no hash-map iteration order can influence the output. -/
theorem claim10_deterministic (es : List (String × Int)) :
    (finalSheet es).columns = canonicalGrid es ∧
    totalExtraTimeWorked es =
      ((sortedDays es).map (fun d =>
        dayTotal es d - NORMAL_WORKING_TIME_PER_DAY_IN_SECONDS)).sum :=
  ⟨finalSheet_columns_canonical es, totalExtra_formula es⟩

/-- C3: for every input day the per-day extra time shown in the report is
the day's total minus the fixed baseline 25200 seconds (7 hours), a signed
value that is negative whenever the day is under baseline. -/
theorem claim3_daily_extra_time (es : List (String × Int)) (d : String)
    (h : d ∈ es.map Prod.fst) :
    NORMAL_WORKING_TIME_PER_DAY_IN_SECONDS = 25200 ∧
    ∃ t : Int, (totalWorkDurationPerDay es).get? d = some t ∧
      (∀ c ∈ (finalSheet es).columns, c.headD "" = d →
        ∃ q r : List String,
          c = q ++ ["", "Extra time worked that day :",
                    toString (t - 25200)] ++ r) ∧
      (t < 25200 → t - 25200 < 0) := by
  have hN : NORMAL_WORKING_TIME_PER_DAY_IN_SECONDS = 25200 := by decide
  have hmem : d ∈ sortedDays es :=
    (mem_sortedDays_iff es d).2 ((mem_map_fst_iff es d).1 h)
  refine ⟨hN, dayTotal es d, totalWorkDurationPerDay_get es d hmem,
    fun c hc hhead => ?_, fun hlt => by omega⟩
  rw [finalSheet_columns_canonical, canonicalGrid] at hc
  obtain ⟨i, hir, hcd⟩ := List.mem_map.1 hc
  have hi : i < (sortedDays es).length := List.mem_range.1 hir
  have hd' : (sortedDays es).getD i "" = d := by
    rw [← hhead, ← hcd]
    rfl
  refine ⟨padColumn (maxDayColumnLen es) (dayColumnOf es d) ++
      ["", "Total time worked that day :", toString (dayTotal es d)],
    ["", "Cumulated extra time worked :", toString (cumThrough es i)], ?_⟩
  rw [← hcd, hd']
  simp [summaryBlock, hN]

/-- Witness for C3: the single under-baseline day 2024-01-03 with total
18000 seconds renders extra time -7200 with a leading minus sign. -/
theorem claim3_daily_extra_time_witness :
    (totalWorkDurationPerDay [("2024-01-03", (18000 : Int))]).get?
        "2024-01-03" = some 18000 ∧
    ((18000 : Int) - 25200 < 0) ∧
    (∃ q r : List String,
      (["2024-01-03", "18000", "", "Total time worked that day :", "18000",
        "", "Extra time worked that day :", "-7200",
        "", "Cumulated extra time worked :", "-7200"] : List String) =
        q ++ ["", "Extra time worked that day :",
              toString ((18000 : Int) - 25200)] ++ r) := by
  obtain ⟨hN, t, hget, hcols, hneg⟩ :=
    claim3_daily_extra_time [("2024-01-03", (18000 : Int))] "2024-01-03"
      (by decide)
  have h18 : (totalWorkDurationPerDay
      [("2024-01-03", (18000 : Int))]).get? "2024-01-03" =
      some (18000 : Int) := by decide
  have ht : t = 18000 := Option.some.inj (hget.symm.trans h18)
  refine ⟨h18, by omega, ?_⟩
  have hcol := hcols
    ["2024-01-03", "18000", "", "Total time worked that day :", "18000",
     "", "Extra time worked that day :", "-7200",
     "", "Cumulated extra time worked :", "-7200"] (by decide) (by decide)
  rw [ht] at hcol
  exact hcol

/-- C4: the column re-sort step orders any sheet's columns ascending by
their row-0 day label (and only permutes them), and the final report grid
of every input has its columns in ascending day-label order. -/
theorem claim4_columns_sorted :
    (∀ s : CSVSheet,
        List.Pairwise CSVSheet.ColLeP (s.sort_columns).columns ∧
        (s.sort_columns).columns.Perm s.columns) ∧
    (∀ es : List (String × Int),
        List.Pairwise CSVSheet.ColLeP (finalSheet es).columns) := by
  refine ⟨fun s => ⟨sort_columns_sorted s, sort_columns_perm s⟩,
    fun es => ?_⟩
  rw [finalSheet_columns, List.pairwise_map]
  exact (sortedDays_sorted es).imp (fun hab => hab)

/-- C5: the padding step is idempotent — re-running it changes nothing, and
on a sheet whose columns already share length `L` (with a consistent cached
maximum) it leaves every column untouched. -/
theorem claim5_align_idempotent :
    (∀ s : CSVSheet, (s.align_columns).align_columns = s.align_columns) ∧
    (∀ (s : CSVSheet) (L : Nat),
      (∀ c ∈ s.columns, c.length = L) → s.max_columns_length ≤ L →
        (s.align_columns).columns = s.columns) :=
  ⟨align_align, align_columns_of_uniform⟩

/-- Witness for C5: an already-uniform two-column sheet is unchanged. -/
theorem claim5_align_idempotent_witness :
    ((CSVSheet.mk [["a"], ["b"]] 1 "results.csv").align_columns).columns =
      [["a"], ["b"]] :=
  claim5_align_idempotent.2 (CSVSheet.mk [["a"], ["b"]] 1 "results.csv") 1
    (by decide) (by decide)

/-- C6: every column of the finished grid ends with exactly the nine-row
summary block, in order: blank, total label, the day's total, blank, extra
label, the day's extra time (decimal, leading minus sign when negative),
blank, cumulative label, the day's cumulative extra time. -/
theorem claim6_summary_block (es : List (String × Int)) (c : List String)
    (h : c ∈ (finalSheet es).columns) :
    ∃ (t cv : Int) (p : List String),
      (totalWorkDurationPerDay es).get? (c.headD "") = some t ∧
      (cumulatedExtraTimePerDay es).get? (c.headD "") = some cv ∧
      c = p ++ ["", "Total time worked that day :", toString t,
                "", "Extra time worked that day :",
                toString (t - NORMAL_WORKING_TIME_PER_DAY_IN_SECONDS),
                "", "Cumulated extra time worked :", toString cv] ∧
      (t - NORMAL_WORKING_TIME_PER_DAY_IN_SECONDS < 0 →
        ∃ str : String,
          toString (t - NORMAL_WORKING_TIME_PER_DAY_IN_SECONDS) =
            "-" ++ str) := by
  rw [finalSheet_columns_canonical, canonicalGrid] at h
  obtain ⟨i, hir, hcd⟩ := List.mem_map.1 h
  have hi : i < (sortedDays es).length := List.mem_range.1 hir
  have hd' : c.headD "" = (sortedDays es).getD i "" := by
    rw [← hcd]
    rfl
  have hdm : (sortedDays es).getD i "" ∈ sortedDays es :=
    getD_mem_sortedDays es i hi
  refine ⟨dayTotal es ((sortedDays es).getD i ""), cumThrough es i,
    padColumn (maxDayColumnLen es)
      (dayColumnOf es ((sortedDays es).getD i "")), ?_, ?_, ?_,
    fun hneg => toString_neg_int _ hneg⟩
  · rw [hd']
    exact totalWorkDurationPerDay_get es _ hdm
  · rw [hd']
    have hg : (sortedDays es).getD i "" = (sortedDays es).get ⟨i, hi⟩ := by
      rw [List.getD_eq_getElem _ _ hi]
      rfl
    rw [hg]
    exact cumulated_get_index es i hi
  · rw [← hcd]
    rfl

/-- Witness for C6 on the single-day under-baseline input: its one column
carries the nine-row block with "-7200" in the extra-time cell. -/
theorem claim6_summary_block_witness :
    ∃ (t cv : Int) (p : List String),
      (totalWorkDurationPerDay [("2024-01-03", (18000 : Int))]).get?
          "2024-01-03" = some t ∧
      (cumulatedExtraTimePerDay [("2024-01-03", (18000 : Int))]).get?
          "2024-01-03" = some cv ∧
      (["2024-01-03", "18000", "", "Total time worked that day :", "18000",
        "", "Extra time worked that day :", "-7200",
        "", "Cumulated extra time worked :", "-7200"] : List String) =
        p ++ ["", "Total time worked that day :", toString t,
              "", "Extra time worked that day :",
              toString (t - NORMAL_WORKING_TIME_PER_DAY_IN_SECONDS),
              "", "Cumulated extra time worked :", toString cv] ∧
      (t - NORMAL_WORKING_TIME_PER_DAY_IN_SECONDS < 0 →
        ∃ str : String,
          toString (t - NORMAL_WORKING_TIME_PER_DAY_IN_SECONDS) =
            "-" ++ str) :=
  claim6_summary_block [("2024-01-03", (18000 : Int))]
    ["2024-01-03", "18000", "", "Total time worked that day :", "18000",
     "", "Extra time worked that day :", "-7200",
     "", "Cumulated extra time worked :", "-7200"] (by decide)

/-- C7 counterexample: on the one-entry input the single finished column
has 11 rows, but the claimed formula (max bucket size + 9) gives 10 — the
day-label row is not accounted for. -/
theorem claim7_row_count_counterexample :
    ¬ (∀ c ∈ (finalSheet [("2024-01-01", (3600 : Int))]).columns,
        c.length = maxBucketSize [("2024-01-01", (3600 : Int))] + 9) := by
  decide

/-- C7 (amended): for every non-empty input, each finished column has
max-bucket-size + 10 rows: the day-label row, the padded durations, and
the nine-row summary block. -/
theorem claim7_row_count_amended (es : List (String × Int)) (h : es ≠ []) :
    ∀ c ∈ (finalSheet es).columns, c.length = maxBucketSize es + 10 := by
  intro c hc
  rw [finalSheet_columns_canonical, canonicalGrid] at hc
  obtain ⟨i, hir, hcd⟩ := List.mem_map.1 hc
  have hi : i < (sortedDays es).length := List.mem_range.1 hir
  have hdm : (sortedDays es).getD i "" ∈ sortedDays es :=
    getD_mem_sortedDays es i hi
  have hlen : (dayColumnOf es ((sortedDays es).getD i "")).length ≤
      maxDayColumnLen es :=
    foldl_max_le_of_mem (sortedDays es)
      (fun d => (dayColumnOf es d).length) hdm 0
  rw [← hcd, List.length_append, padColumn_length hlen]
  rw [show (summaryBlock (dayTotal es ((sortedDays es).getD i ""))
      (cumThrough es i)).length = 9 from rfl]
  rw [maxDayColumnLen_eq es (sortedDays_ne_nil es h)]

/-- Witness for C7 (amended): the one-entry input's finished column has
1 + 10 = 11 rows. -/
theorem claim7_row_count_amended_witness :
    (["2024-01-01", "3600", "", "Total time worked that day :", "3600",
      "", "Extra time worked that day :", "-21600",
      "", "Cumulated extra time worked :", "-21600"] : List String).length =
      maxBucketSize [("2024-01-01", (3600 : Int))] + 10 :=
  claim7_row_count_amended [("2024-01-01", (3600 : Int))] (by decide)
    ["2024-01-01", "3600", "", "Total time worked that day :", "3600",
     "", "Extra time worked that day :", "-21600",
     "", "Cumulated extra time worked :", "-21600"] (by decide)

/-- C9: every lookup the pipeline performs succeeds — for each sorted day
the task map, totals map and cumulative map all hold the day, and for each
aligned column's row-0 label both summary lookups hold it, so the
`.unwrap()` panic branches are unreachable. -/
theorem claim9_lookups_succeed (es : List (String × Int)) :
    (∀ d ∈ sortedDays es,
        ((tasksPerDay es).get? d).isSome = true ∧
        ((totalWorkDurationPerDay es).get? d).isSome = true ∧
        ((cumulatedExtraTimePerDay es).get? d).isSome = true) ∧
    (∀ c ∈ (((builtSheet es).sort_columns).align_columns).columns,
        ((totalWorkDurationPerDay es).get? (c.headD "")).isSome = true ∧
        ((cumulatedExtraTimePerDay es).get? (c.headD "")).isSome = true) := by
  have hcum : ∀ d ∈ sortedDays es,
      ((cumulatedExtraTimePerDay es).get? d).isSome = true := by
    intro d hd
    obtain ⟨n, hn⟩ := List.get_of_mem hd
    rw [← hn, cumulated_get_index es n.1 n.2]
    rfl
  have htot : ∀ d ∈ sortedDays es,
      ((totalWorkDurationPerDay es).get? d).isSome = true := by
    intro d hd
    rw [totalWorkDurationPerDay_get es d hd]
    rfl
  constructor
  · intro d hd
    refine ⟨?_, htot d hd, hcum d hd⟩
    rw [tasksPerDay_get es d ((mem_sortedDays_iff es d).1 hd)]
    rfl
  · intro c hc
    rw [sort_columns_of_sorted _ (builtSheet_sorted es), builtSheet_eq,
      align_columns_eq] at hc
    simp only [List.map_map, List.mem_map] at hc
    obtain ⟨d, hd, hcd⟩ := hc
    rw [← hcd]
    exact ⟨htot d hd, hcum d hd⟩

/-- Witness for C9 on the three-entry scenario: the lookups for day
2024-01-01 and for the aligned column of day 2024-01-02 all succeed. -/
theorem claim9_lookups_succeed_witness :
    (((tasksPerDay
        [("2024-01-02", (28800 : Int)), ("2024-01-01", 3600),
         ("2024-01-01", 21600)]).get? "2024-01-01").isSome = true ∧
     ((totalWorkDurationPerDay
        [("2024-01-02", (28800 : Int)), ("2024-01-01", 3600),
         ("2024-01-01", 21600)]).get? "2024-01-01").isSome = true ∧
     ((cumulatedExtraTimePerDay
        [("2024-01-02", (28800 : Int)), ("2024-01-01", 3600),
         ("2024-01-01", 21600)]).get? "2024-01-01").isSome = true) ∧
    (((totalWorkDurationPerDay
        [("2024-01-02", (28800 : Int)), ("2024-01-01", 3600),
         ("2024-01-01", 21600)]).get? "2024-01-02").isSome = true ∧
     ((cumulatedExtraTimePerDay
        [("2024-01-02", (28800 : Int)), ("2024-01-01", 3600),
         ("2024-01-01", 21600)]).get? "2024-01-02").isSome = true) :=
  ⟨(claim9_lookups_succeed
      [("2024-01-02", (28800 : Int)), ("2024-01-01", 3600),
       ("2024-01-01", 21600)]).1 "2024-01-01" (by decide),
   (claim9_lookups_succeed
      [("2024-01-02", (28800 : Int)), ("2024-01-01", 3600),
       ("2024-01-01", 21600)]).2 ["2024-01-02", "28800", ""] (by decide)⟩

end CalcExtra
